import Mathlib

/-!
Shallow embedding of `src/app.js` of the country_currency_api repository.

The repository bundles two Express variants of the same API:
* a full-replace variant (top of `app.js`): `POST /countries/refresh` deletes
  every row and reinserts the first 50 fetched countries (REST Countries v3.1
  payload shape);
* an incremental upsert variant (bottom of `app.js`): the first 10 fetched
  countries (v2 payload shape) are looked up by name and updated or inserted.

JavaScript values that matter to the claims (undefined vs null vs NaN, `||`
falsiness on `""` and `0`, truthiness of `exchangeRates[code]`) are modelled
explicitly.  Timestamps are naturals, JS numbers are rationals plus an
explicit NaN constructor where NaN can arise.
-/

namespace CountryCurrencyApi

/-- A JavaScript number that may be NaN (`undefined * x` produces NaN). -/
inductive JNum where
  | nan
  | val (q : ℚ)
deriving DecidableEq

/-- A JavaScript value bound as a SQL statement parameter.  `mysql2` raises on
`undef`; `null` is stored as SQL NULL. -/
inductive PVal where
  | undef
  | null
  | s (v : String)
  | i (v : ℤ)
  | q (v : ℚ)
  | nan
deriving DecidableEq

/-- Raw country payload of the REST Countries v3.1 endpoint, as read by the
full-replace variant: `name.common`, `capital` (array), `region`,
`population`, `flags.png`, and the key list of the `currencies` object.
`none` models an absent field. -/
structure RawV3 where
  nameCommon : Option String
  capital : Option (List String)
  region : Option String
  population : Option ℤ
  flagsPng : Option String
  currencies : Option (List String)
deriving DecidableEq

/-- One entry of the v2 `currencies` array; `code` may be absent. -/
structure CurrencyV2 where
  code : Option String
deriving DecidableEq

/-- Raw country payload of the REST Countries v2 endpoint, as read by the
upsert variant: `name` and `capital` are plain strings, `flag` a string,
`currencies` an array of objects. -/
structure RawV2 where
  name : Option String
  capital : Option String
  region : Option String
  population : Option ℤ
  flag : Option String
  currencies : Option (List CurrencyV2)
deriving DecidableEq

/-- The exchange-rate table fetched from `open.er-api.com`: currency code to
USD rate. -/
abbrev Rates := List (String × ℚ)

/-- `exchangeRates[code]` object lookup. -/
def ratesLookup (rates : Rates) (code : String) : Option ℚ :=
  (rates.find? (fun p => p.1 = code)).map (fun p => p.2)

/-- `getRandomNumber(min, max)` of the full-replace variant:
`Math.floor(Math.random() * (max - min + 1)) + min`, with `r` the value of
`Math.random()` (so `0 ≤ r < 1`). -/
def getRandomNumber (min max : ℤ) (r : ℚ) : ℤ :=
  ⌊r * ((max : ℚ) - (min : ℚ) + 1)⌋ + min

/-- `(country.population * randomMultiplier) / exchangeRate` in the
full-replace variant; an absent `population` is `undefined` and the product
is NaN. -/
def gdpOfV3 (pop : Option ℤ) (m : ℤ) (rate : ℚ) : JNum :=
  match pop with
  | none => JNum.nan
  | some p => JNum.val ((p : ℚ) * (m : ℚ) / rate)

/-- `(country.population * randomMultiplier) / exchangeRate` in the upsert
variant, whose multiplier is a rational. -/
def gdpOfV2 (pop : Option ℤ) (m : ℚ) (rate : ℚ) : JNum :=
  match pop with
  | none => JNum.nan
  | some p => JNum.val ((p : ℚ) * m / rate)

/-- The `currencyCode` / `exchangeRate` / `estimatedGDP` triple computed by
the full-replace refresh loop body. -/
structure MappedV3 where
  currencyCode : Option String
  exchangeRate : Option ℚ
  estimatedGDP : Option JNum
deriving DecidableEq

/-- Full-replace variant, refresh loop body (src/app.js lines 84-103):
`currencyCode` is the first key of `country.currencies` when present;
`exchangeRate` and `estimatedGDP` are set only when
`currencyCode && exchangeRates[currencyCode]` is truthy (so an empty-string
code or a zero rate leaves them null).  `r` is the `Math.random()` draw. -/
def mapV3 (c : RawV3) (rates : Rates) (r : ℚ) : MappedV3 :=
  match c.currencies with
  | none => ⟨none, none, none⟩
  | some keys =>
    match keys.head? with
    | none => ⟨none, none, none⟩
    | some code =>
      if code = "" then ⟨some code, none, none⟩
      else
        match ratesLookup rates code with
        | none => ⟨some code, none, none⟩
        | some q =>
          if q = 0 then ⟨some code, none, none⟩
          else ⟨some code, some q,
                some (gdpOfV3 c.population (getRandomNumber 1000 2000 r) q)⟩

/-- The `currencyCode` / `exchangeRate` / `estimatedGDP` triple computed by
the upsert refresh loop body.  `currencyCode` is kept as a `PVal` because
`country.currencies[0].code` may be `undefined`, which is distinct from the
initial `null`. -/
structure MappedV2 where
  currencyCode : PVal
  exchangeRate : Option ℚ
  estimatedGDP : Option JNum
deriving DecidableEq

/-- Upsert variant, refresh loop body (src/app.js lines 450-463):
`currencyCode = country.currencies[0].code` when the array is present and
non-empty; the rate and GDP are set only when
`currencyCode && exchangeRates[currencyCode]` is truthy.  The multiplier is
`Math.random() * 1000 + 1000` with `r` the `Math.random()` draw. -/
def mapV2 (c : RawV2) (rates : Rates) (r : ℚ) : MappedV2 :=
  match c.currencies with
  | none => ⟨PVal.null, none, none⟩
  | some [] => ⟨PVal.null, none, none⟩
  | some (cur :: _) =>
    match cur.code with
    | none => ⟨PVal.undef, none, none⟩
    | some code =>
      if code = "" then ⟨PVal.s code, none, none⟩
      else
        match ratesLookup rates code with
        | none => ⟨PVal.s code, none, none⟩
        | some q =>
          if q = 0 then ⟨PVal.s code, none, none⟩
          else ⟨PVal.s code, some q,
                some (gdpOfV2 c.population (r * 1000 + 1000) q)⟩

/-- The eight bind parameters of the `INSERT INTO countries` statement. -/
structure InsertParams where
  name : PVal
  capital : PVal
  region : PVal
  population : PVal
  currency_code : PVal
  exchange_rate : PVal
  estimated_gdp : PVal
  flag_url : PVal
deriving DecidableEq

/-- JS `x || dflt` on an optional string: the empty string is falsy. -/
def jsStrOr (x : Option String) (dflt : PVal) : PVal :=
  match x with
  | some s => if s = "" then dflt else PVal.s s
  | none => dflt

/-- The parameter corresponding to an optional rational (`null` when the JS
variable stayed `null`). -/
def pOfRat : Option ℚ → PVal
  | some q => PVal.q q
  | none => PVal.null

/-- The parameter corresponding to the `estimatedGDP` variable. -/
def pOfGdp : Option JNum → PVal
  | none => PVal.null
  | some JNum.nan => PVal.nan
  | some (JNum.val q) => PVal.q q

/-- Insert parameters of the full-replace variant (src/app.js lines 106-120):
`country.name?.common || 'Unknown'`, `country.capital ? country.capital[0] :
null`, `country.region || null`, `country.population || 0`, the mapped
currency triple, and `country.flags?.png || null`. -/
def paramsV3 (c : RawV3) (rates : Rates) (r : ℚ) : InsertParams :=
  let m := mapV3 c rates r
  { name := jsStrOr c.nameCommon (PVal.s "Unknown")
    capital :=
      match c.capital with
      | none => PVal.null
      | some l =>
        match l.head? with
        | some x => PVal.s x
        | none => PVal.undef
    region := jsStrOr c.region PVal.null
    population := PVal.i (match c.population with | some p => p | none => 0)
    currency_code :=
      match m.currencyCode with
      | some s => PVal.s s
      | none => PVal.null
    exchange_rate := pOfRat m.exchangeRate
    estimated_gdp := pOfGdp m.estimatedGDP
    flag_url := jsStrOr c.flagsPng PVal.null }

/-- Insert parameters of the upsert variant (src/app.js lines 492-506):
`country.name` and `country.population` are passed through unchanged
(`undefined` when absent), the rest default through `|| null`. -/
def paramsV2 (c : RawV2) (rates : Rates) (r : ℚ) : InsertParams :=
  let m := mapV2 c rates r
  { name := match c.name with | some s => PVal.s s | none => PVal.undef
    capital := jsStrOr c.capital PVal.null
    region := jsStrOr c.region PVal.null
    population :=
      match c.population with
      | some p => PVal.i p
      | none => PVal.undef
    currency_code := m.currencyCode
    exchange_rate := pOfRat m.exchangeRate
    estimated_gdp := pOfGdp m.estimatedGDP
    flag_url := jsStrOr c.flag PVal.null }

/-- The shape of an axios rejection that reaches the refresh catch handler:
`error.code` and whether `error.response` is present (truthy). -/
structure FetchErr where
  code : Option String
  hasResponse : Bool
deriving DecidableEq

/-- Status chosen by the full-replace catch handler (src/app.js lines
138-151): 503 when `error.code === 'ECONNREFUSED' || error.response`,
otherwise 500.  (The upsert variant, lines 533-546, checks only
`error.response`.) -/
def errStatus (e : FetchErr) : ℕ :=
  if e.code = some "ECONNREFUSED" ∨ e.hasResponse then 503 else 500

/-- An axios timeout rejection: `code` is `ECONNABORTED` and there is no
`response` object. -/
def axiosTimeoutError : FetchErr :=
  ⟨some "ECONNABORTED", false⟩

/-- Full-replace `POST /countries/refresh` (src/app.js lines 52-158), as a
function of the two fetch outcomes, the per-record `Math.random()` draws
`rand`, a per-record insert-success oracle `ok` (a driver error makes the
loop skip that record), and the current table contents.  Both fetches happen
before any SQL executes, so a fetch failure returns with the table
untouched; on success the table is cleared (`DELETE FROM countries`) and the
successfully inserted records of the first 50 countries replace it.
Returns the HTTP status and the resulting table. -/
def refreshFull (cRes : Except FetchErr (List RawV3))
    (rRes : Except FetchErr Rates) (rand : ℕ → ℚ) (ok : ℕ → Bool)
    (db : List InsertParams) : ℕ × List InsertParams :=
  match cRes with
  | Except.error e => (errStatus e, db)
  | Except.ok countries =>
    match rRes with
    | Except.error e => (errStatus e, db)
    | Except.ok rates =>
      let inserted := ((countries.take 50).enum.filter (fun p => ok p.1)).map
        (fun p => paramsV3 p.2 rates (rand p.1))
      (201, inserted)

/-- The counter updates of the upsert refresh loop (src/app.js lines
448-522): each iteration increments `processedCount`; `successCount` is
additionally incremented when the iteration's try-block succeeds.  The
accumulator is `(processedCount, successCount)`. -/
def loopCounters (l : List α) (ok : α → Bool) : ℕ × ℕ :=
  l.foldl (fun acc c => if ok c then (acc.1 + 1, acc.2 + 1) else (acc.1 + 1, acc.2))
    (0, 0)

/-- The `ORDER BY` clause selected by `GET /countries`. -/
inductive SortKey where
  | nameAsc
  | gdpDesc
  | gdpAsc
  | popDesc
deriving DecidableEq

/-- Sort selection of the full-replace variant (src/app.js lines 181-188):
`gdp_desc`, `population_desc`, else name ascending.  There is no `gdp_asc`
branch. -/
def orderByFull (sort : Option String) : SortKey :=
  if sort = some "gdp_desc" then SortKey.gdpDesc
  else if sort = some "population_desc" then SortKey.popDesc
  else SortKey.nameAsc

/-- Sort selection of the upsert variant (src/app.js lines 578-586):
`gdp_desc`, `gdp_asc`, `population_desc`, else name ascending. -/
def orderByUpsert (sort : Option String) : SortKey :=
  if sort = some "gdp_desc" then SortKey.gdpDesc
  else if sort = some "gdp_asc" then SortKey.gdpAsc
  else if sort = some "population_desc" then SortKey.popDesc
  else SortKey.nameAsc

/-- The content columns of a row of the `countries` table (everything the
upsert `UPDATE` statement sets, except `last_refreshed_at`). -/
structure URecord where
  name : String
  capital : Option String
  region : Option String
  population : Option ℤ
  currency_code : Option String
  exchange_rate : Option ℚ
  estimated_gdp : Option ℚ
  flag_url : Option String
deriving DecidableEq

/-- A stored row: content columns plus `last_refreshed_at` (a NULLable
timestamp column with default `CURRENT_TIMESTAMP`). -/
structure Row extends URecord where
  last_refreshed_at : Option ℕ
deriving DecidableEq

/-- The row written for a mapped record at timestamp `now` (`UPDATE` sets
`last_refreshed_at = NOW()`; `INSERT` leaves it to its `CURRENT_TIMESTAMP`
default). -/
def rowOf (e : URecord) (now : ℕ) : Row :=
  { toURecord := e, last_refreshed_at := some now }

/-- One iteration of the upsert refresh loop at the persistence level
(src/app.js lines 466-507): `SELECT id FROM countries WHERE name = ?`; when a
row exists, `UPDATE` every row of that name with the mapped content and
`last_refreshed_at = NOW()`; otherwise `INSERT` a new row. -/
def upsertRow (db : List Row) (e : URecord) (now : ℕ) : List Row :=
  if 0 < (db.filter (fun r => r.name = e.name)).length then
    db.map (fun r => if r.name = e.name then rowOf e now else r)
  else
    db ++ [rowOf e now]

/-- The whole upsert refresh batch, applied left to right. -/
def runBatch (db : List Row) (batch : List URecord) (now : ℕ) : List Row :=
  batch.foldl (fun d e => upsertRow d e now) db

/-- The first stored row of a given name (names are unique in practice, so
this is the stored row). -/
def lookupRow (db : List Row) (n : String) : Option Row :=
  (db.filter (fun r => r.name = n)).head?

/-- `GET /countries/:name` (src/app.js lines 206-234): 400 when the name is
falsy, 404 when `SELECT * FROM countries WHERE name = ?` returns no row,
otherwise 200 with the first row. -/
def getCountryByName (db : List Row) (n : String) : ℕ × Option Row :=
  if n = "" then (400, none)
  else if (db.filter (fun r => r.name = n)).isEmpty then (404, none)
  else (200, (db.filter (fun r => r.name = n)).head?)

/-- `DELETE /countries/:name` (src/app.js lines 237-265): 400 when the name
is falsy, 404 when `affectedRows` is 0, otherwise 204 with the matching rows
removed. -/
def deleteCountry (db : List Row) (n : String) : ℕ × List Row :=
  if n = "" then (400, db)
  else if (db.filter (fun r => r.name = n)).length = 0 then (404, db)
  else (204, db.filter (fun r => ¬ r.name = n))

/-- `SELECT MAX(last_refreshed_at) FROM countries`: NULL on an empty table,
and NULL values are ignored by SQL `MAX`. -/
def maxLastRefreshedAt (db : List Row) : Option ℕ :=
  (db.filterMap (fun r => r.last_refreshed_at)).max?

/-- The `last_refreshed_at` field reported by the upsert variant's
`GET /status` (src/app.js lines 610-617): the SQL maximum, or the in-process
global `lastRefreshTime` when that maximum is NULL (`||`). -/
def statusLastRefreshedAt (db : List Row) (lastRefreshTime : Option ℕ) :
    Option ℕ :=
  match maxLastRefreshedAt db with
  | some t => some t
  | none => lastRefreshTime

/-- Effect of one `POST /countries/refresh` invocation on the module-level
`lastRefreshTime` of the upsert variant (src/app.js lines 389 and 524): set
to the completion time when the handler reaches the end of its try block,
left unchanged when it fails earlier. -/
def stepRefreshTime (st : Option ℕ) (ev : Bool × ℕ) : Option ℕ :=
  if ev.1 then some ev.2 else st

/-- `lastRefreshTime` after a sequence of refresh invocations (flag: did the
invocation complete; value: its completion time), starting from the initial
`null`. -/
def lastRefreshTimeAfter (evs : List (Bool × ℕ)) : Option ℕ :=
  evs.foldl stepRefreshTime none

/-- Membership of an optional GDP value in a closed rational interval (NaN
and null both fail). -/
def inClosedRange (lo hi : ℚ) : Option JNum → Prop
  | some (JNum.val q) => lo ≤ q ∧ q ≤ hi
  | _ => False

/-- Membership of an optional GDP value in a half-open rational interval. -/
def inHalfOpenRange (lo hi : ℚ) : Option JNum → Prop
  | some (JNum.val q) => lo ≤ q ∧ q < hi
  | _ => False

/-- The Testland payload of the spec's refresh scenario, in v3.1 shape. -/
def testlandV3 : RawV3 :=
  ⟨some "Testland", some ["Test City"], none, some 1000, none, some ["USD"]⟩

/-- The Testland payload in v2 shape. -/
def testlandV2 : RawV2 :=
  ⟨some "Testland", some "Test City", none, some 1000, none, some [⟨some "USD"⟩]⟩

/-- The exchange-rate table of the spec's scenario. -/
def usdRates : Rates := [("USD", 2)]

/-! ### Helper lemmas -/

theorem loopCounters_aux {α : Type} (l : List α) (ok : α → Bool) :
    ∀ a : ℕ × ℕ,
      (l.foldl (fun acc c =>
        if ok c then (acc.1 + 1, acc.2 + 1) else (acc.1 + 1, acc.2)) a).1
          = a.1 + l.length ∧
      (l.foldl (fun acc c =>
        if ok c then (acc.1 + 1, acc.2 + 1) else (acc.1 + 1, acc.2)) a).2
          ≤ a.2 + l.length := by
  induction l with
  | nil => intro a; simp
  | cons x xs ih =>
    intro a
    simp only [List.foldl_cons, List.length_cons]
    by_cases hx : ok x
    · rw [if_pos hx]
      have h := ih (a.1 + 1, a.2 + 1)
      exact ⟨by rw [h.1]; omega, Nat.le_trans h.2 (by omega)⟩
    · rw [if_neg hx]
      have h := ih (a.1 + 1, a.2)
      exact ⟨by rw [h.1]; omega, Nat.le_trans h.2 (by omega)⟩

theorem loopCounters_spec {α : Type} (l : List α) (ok : α → Bool) :
    (loopCounters l ok).1 = l.length ∧ (loopCounters l ok).2 ≤ l.length := by
  have h := loopCounters_aux l ok (0, 0)
  simpa [loopCounters] using h

theorem foldl_failed_refreshes (fails : List ℕ) :
    ∀ st : Option ℕ,
      (fails.map (fun u => ((false : Bool), u))).foldl stepRefreshTime st = st := by
  induction fails with
  | nil => intro st; rfl
  | cons f fs ih => intro st; simpa [stepRefreshTime] using ih st

theorem mapV3_testland (r : ℚ) :
    mapV3 testlandV3 usdRates r =
      ⟨some "USD", some 2,
        some (JNum.val
          (((1000 : ℤ) : ℚ) * ((getRandomNumber 1000 2000 r : ℤ) : ℚ) / 2))⟩ := rfl

theorem mapV2_testland (r : ℚ) :
    mapV2 testlandV2 usdRates r =
      ⟨PVal.s "USD", some 2,
        some (JNum.val (((1000 : ℤ) : ℚ) * (r * 1000 + 1000) / 2))⟩ := rfl

theorem getRandomNumber_bounds (r : ℚ) (h0 : 0 ≤ r) (h1 : r < 1) :
    1000 ≤ getRandomNumber 1000 2000 r ∧ getRandomNumber 1000 2000 r ≤ 2000 := by
  unfold getRandomNumber
  have hx : ((2000 : ℤ) : ℚ) - ((1000 : ℤ) : ℚ) + 1 = 1001 := by norm_num
  rw [hx]
  have hnn : (0 : ℤ) ≤ ⌊r * 1001⌋ :=
    Int.floor_nonneg.mpr (mul_nonneg h0 (by norm_num))
  have hlt : ⌊r * 1001⌋ < 1001 := by
    apply Int.floor_lt.mpr
    have := mul_lt_mul_of_pos_right h1 (show (0 : ℚ) < 1001 by norm_num)
    push_cast
    linarith
  omega

/-! ### Claims -/

/-- C1: on a fetch failure the full-replace refresh executes no delete or
insert (the table is returned unchanged), whichever fetch failed; a refused
connection or an upstream error response yields 503; but an axios timeout
(`ECONNABORTED`, no response object) falls through to the 500 branch, so the
claimed 503-on-timeout does not hold. -/
theorem claim_C1_fetch_failure :
    ∀ (e : FetchErr) (rRes : Except FetchErr Rates) (countries : List RawV3)
      (rand : ℕ → ℚ) (ok : ℕ → Bool) (db : List InsertParams),
      refreshFull (Except.error e) rRes rand ok db = (errStatus e, db) ∧
      refreshFull (Except.ok countries) (Except.error e) rand ok db
        = (errStatus e, db) ∧
      refreshFull (Except.error axiosTimeoutError) rRes rand ok db = (500, db) ∧
      errStatus ⟨some "ECONNREFUSED", false⟩ = 503 ∧
      errStatus ⟨none, true⟩ = 503 := by
  intro e rRes countries rand ok db
  refine ⟨rfl, rfl, ?_, by decide, by decide⟩
  show (errStatus axiosTimeoutError, db) = (500, db)
  have : errStatus axiosTimeoutError = 500 := by decide
  rw [this]

/-- C2 counterexample: the full-replace multiplier
`Math.floor(Math.random() * 1001) + 1000` can return 2000 (so it is not
drawn from the half-open interval `[1000, 2000)`), and on the Testland
scenario the stored GDP can equal exactly 1000000, which is not strictly
between 500000 and 1000000. -/
theorem claim_C2_counterexample :
    getRandomNumber 1000 2000 (1000 / 1001) = 2000 ∧
    (mapV3 testlandV3 usdRates (1000 / 1001)).estimatedGDP
      = some (JNum.val 1000000) := by
  constructor
  · unfold getRandomNumber
    have hx : ((1000 : ℚ) / 1001) * (((2000 : ℤ) : ℚ) - ((1000 : ℤ) : ℚ) + 1)
        = 1000 := by norm_num
    rw [hx]
    norm_num
  · rw [mapV3_testland]
    have h2 : getRandomNumber 1000 2000 (1000 / 1001) = 2000 := by
      unfold getRandomNumber
      have hx : ((1000 : ℚ) / 1001) * (((2000 : ℤ) : ℚ) - ((1000 : ℤ) : ℚ) + 1)
          = 1000 := by norm_num
      rw [hx]
      norm_num
    rw [h2]
    norm_num

/-- C2 amended: the full-replace multiplier is an integer drawn from the
closed range `[1000, 2000]`, and on the Testland scenario (population 1000,
rate 2.0) the stored GDP lies in the closed interval `[500000, 1000000]`;
the upsert variant's multiplier `Math.random() * 1000 + 1000` lies in
`[1000, 2000)` and its GDP in the half-open `[500000, 1000000)` — in both
variants the lower bound 500000 is attainable, so neither bound is strict as
claimed. -/
theorem claim_C2_amended (r : ℚ) (h0 : 0 ≤ r) (h1 : r < 1) :
    (1000 ≤ getRandomNumber 1000 2000 r ∧ getRandomNumber 1000 2000 r ≤ 2000) ∧
    (mapV3 testlandV3 usdRates r).currencyCode = some "USD" ∧
    (mapV3 testlandV3 usdRates r).exchangeRate = some 2 ∧
    inClosedRange 500000 1000000 (mapV3 testlandV3 usdRates r).estimatedGDP ∧
    inHalfOpenRange 500000 1000000 (mapV2 testlandV2 usdRates r).estimatedGDP := by
  have hm := getRandomNumber_bounds r h0 h1
  refine ⟨hm, ?_, ?_, ?_, ?_⟩
  · rw [mapV3_testland]
  · rw [mapV3_testland]
  · rw [mapV3_testland]
    have hlo : (1000 : ℚ) ≤ ((getRandomNumber 1000 2000 r : ℤ) : ℚ) := by
      exact_mod_cast hm.1
    have hhi : ((getRandomNumber 1000 2000 r : ℤ) : ℚ) ≤ 2000 := by
      exact_mod_cast hm.2
    simp only [inClosedRange]
    constructor <;> [linarith; linarith]
  · rw [mapV2_testland]
    have heq : ((1000 : ℤ) : ℚ) * (r * 1000 + 1000) / 2 = 500000 * r + 500000 := by
      push_cast
      ring
    simp only [inHalfOpenRange, heq]
    constructor <;> [linarith; linarith]

/-- C2 witness: the amended statement at the concrete draw `r = 1/2`. -/
theorem claim_C2_amended_witness :
    (1000 ≤ getRandomNumber 1000 2000 (1 / 2)
        ∧ getRandomNumber 1000 2000 (1 / 2) ≤ 2000) ∧
    (mapV3 testlandV3 usdRates (1 / 2)).currencyCode = some "USD" ∧
    (mapV3 testlandV3 usdRates (1 / 2)).exchangeRate = some 2 ∧
    inClosedRange 500000 1000000 (mapV3 testlandV3 usdRates (1 / 2)).estimatedGDP ∧
    inHalfOpenRange 500000 1000000
      (mapV2 testlandV2 usdRates (1 / 2)).estimatedGDP :=
  claim_C2_amended (1 / 2) (by norm_num) (by norm_num)

/-- C4: in the upsert variant `successful ≤ total_processed ≤ 10` (the batch
cap `slice(0, 10)`), and in the full-replace variant the reported success
count is at most the cap 50 (`slice(0, 50)`). -/
theorem claim_C4_counter_bounds :
    ∀ (countriesU : List RawV2) (countriesF : List RawV3)
      (okU : ℕ × RawV2 → Bool) (okF : ℕ × RawV3 → Bool),
      (loopCounters (countriesU.take 10).enum okU).2
          ≤ (loopCounters (countriesU.take 10).enum okU).1 ∧
      (loopCounters (countriesU.take 10).enum okU).1 ≤ 10 ∧
      (loopCounters (countriesF.take 50).enum okF).2 ≤ 50 := by
  intro countriesU countriesF okU okF
  have hu := loopCounters_spec (countriesU.take 10).enum okU
  have hf := loopCounters_spec (countriesF.take 50).enum okF
  have hlenU : (countriesU.take 10).enum.length ≤ 10 := by
    simp [List.enum_length, List.length_take]
  have hlenF : (countriesF.take 50).enum.length ≤ 50 := by
    simp [List.enum_length, List.length_take]
  refine ⟨?_, ?_, ?_⟩
  · rw [hu.1]; exact hu.2
  · rw [hu.1]; exact hlenU
  · exact Nat.le_trans hf.2 hlenF

/-- C5 counterexample: the full-replace variant has no `gdp_asc` branch, so
`sort=gdp_asc` falls back to name ascending instead of ascending GDP. -/
theorem claim_C5_counterexample :
    orderByFull (some "gdp_asc") = SortKey.nameAsc ∧
    SortKey.nameAsc ≠ SortKey.gdpAsc := by
  exact ⟨by decide, by decide⟩

/-- C5 amended: the upsert variant supports exactly the four sort keys with
name ascending as the fallback; the full-replace variant supports only
`gdp_desc` and `population_desc`, every other value of `sort` (including
`gdp_asc`) falling back to name ascending. -/
theorem claim_C5_amended (s : Option String) :
    orderByUpsert (some "gdp_desc") = SortKey.gdpDesc ∧
    orderByUpsert (some "gdp_asc") = SortKey.gdpAsc ∧
    orderByUpsert (some "population_desc") = SortKey.popDesc ∧
    (s ≠ some "gdp_desc" → s ≠ some "gdp_asc" → s ≠ some "population_desc" →
      orderByUpsert s = SortKey.nameAsc) ∧
    orderByFull (some "gdp_desc") = SortKey.gdpDesc ∧
    orderByFull (some "population_desc") = SortKey.popDesc ∧
    orderByFull (some "gdp_asc") = SortKey.nameAsc ∧
    (s ≠ some "gdp_desc" → s ≠ some "population_desc" →
      orderByFull s = SortKey.nameAsc) := by
  refine ⟨by decide, by decide, by decide, ?_, by decide, by decide, by decide, ?_⟩
  · intro h1 h2 h3
    unfold orderByUpsert
    rw [if_neg h1, if_neg h2, if_neg h3]
  · intro h1 h2
    unfold orderByFull
    rw [if_neg h1, if_neg h2]

/-- C5 witness: an unrecognized sort key falls back to name ascending in
both variants. -/
theorem claim_C5_amended_witness :
    orderByUpsert (some "name_desc") = SortKey.nameAsc ∧
    orderByFull (some "name_desc") = SortKey.nameAsc :=
  ⟨(claim_C5_amended (some "name_desc")).2.2.2.1 (by decide) (by decide) (by decide),
   (claim_C5_amended (some "name_desc")).2.2.2.2.2.2.2 (by decide) (by decide)⟩

/-- C10: on an empty table the upsert variant's `GET /status` reports
`last_refreshed_at` from the module-level `lastRefreshTime`, which is `null`
before any refresh completes in the process and afterwards holds the
completion time of the most recent completed refresh (later failed
invocations leave it alone); the reported value can thus diverge from the
stored data, whose maximum is NULL. -/
theorem claim_C10_status_fallback :
    ∀ (g : Option ℕ) (evs : List (Bool × ℕ)) (t : ℕ) (fails : List ℕ),
      statusLastRefreshedAt [] g = g ∧
      lastRefreshTimeAfter [] = none ∧
      lastRefreshTimeAfter
        (evs ++ ((true : Bool), t) :: fails.map (fun u => ((false : Bool), u)))
          = some t ∧
      statusLastRefreshedAt [] (some t) ≠ maxLastRefreshedAt [] := by
  intro g evs t fails
  refine ⟨rfl, rfl, ?_, ?_⟩
  · unfold lastRefreshTimeAfter
    rw [List.foldl_append, List.foldl_cons]
    simpa [stepRefreshTime] using foldl_failed_refreshes fails (some t)
  · simp [statusLastRefreshedAt, maxLastRefreshedAt]

/-- C10 witness: the status fallback evaluated on an empty table after one
completed refresh at time 5, with a stale global of 4 for the first
conjunct. -/
theorem claim_C10_witness :
    statusLastRefreshedAt [] (some 4) = some 4 ∧
    lastRefreshTimeAfter [((true : Bool), 5)] = some 5 ∧
    statusLastRefreshedAt [] (some 5) ≠ maxLastRefreshedAt [] :=
  ⟨(claim_C10_status_fallback (some 4) [] 5 []).1,
   (claim_C10_status_fallback (some 4) [] 5 []).2.2.1,
   (claim_C10_status_fallback (some 4) [] 5 []).2.2.2⟩

/-! ### Mapper shape lemmas -/

theorem mapV3_no_currencies (c : RawV3) (rates : Rates) (r : ℚ)
    (h : c.currencies = none) : mapV3 c rates r = ⟨none, none, none⟩ := by
  unfold mapV3
  rw [h]

theorem mapV2_no_currencies (c : RawV2) (rates : Rates) (r : ℚ)
    (h : c.currencies = none) : mapV2 c rates r = ⟨PVal.null, none, none⟩ := by
  unfold mapV2
  rw [h]

theorem mapV3_shape (c : RawV3) (rates : Rates) (r : ℚ) :
    mapV3 c rates r = ⟨none, none, none⟩ ∨
    (∃ code, mapV3 c rates r = ⟨some code, none, none⟩) ∨
    (∃ code q, ratesLookup rates code = some q ∧ q ≠ 0 ∧ code ≠ "" ∧
      mapV3 c rates r = ⟨some code, some q,
        some (gdpOfV3 c.population (getRandomNumber 1000 2000 r) q)⟩) := by
  rcases c with ⟨n, cap, reg, pop, fl, cur⟩
  cases cur with
  | none => exact Or.inl rfl
  | some keys =>
    cases keys with
    | nil => exact Or.inl rfl
    | cons code rest =>
      by_cases hcode : code = ""
      · subst hcode
        exact Or.inr (Or.inl ⟨"", by simp [mapV3]⟩)
      · cases hl : ratesLookup rates code with
        | none =>
          exact Or.inr (Or.inl ⟨code, by simp [mapV3, hcode, hl]⟩)
        | some q =>
          by_cases hq : q = 0
          · subst hq
            exact Or.inr (Or.inl ⟨code, by simp [mapV3, hcode, hl]⟩)
          · exact Or.inr (Or.inr ⟨code, q, hl, hq, hcode,
              by simp [mapV3, hcode, hl, hq]⟩)

theorem mapV2_shape (c : RawV2) (rates : Rates) (r : ℚ) :
    mapV2 c rates r = ⟨PVal.null, none, none⟩ ∨
    mapV2 c rates r = ⟨PVal.undef, none, none⟩ ∨
    (∃ code, mapV2 c rates r = ⟨PVal.s code, none, none⟩) ∨
    (∃ code q, ratesLookup rates code = some q ∧ q ≠ 0 ∧ code ≠ "" ∧
      mapV2 c rates r = ⟨PVal.s code, some q,
        some (gdpOfV2 c.population (r * 1000 + 1000) q)⟩) := by
  rcases c with ⟨n, cap, reg, pop, fl, cur⟩
  cases cur with
  | none => exact Or.inl rfl
  | some entries =>
    cases entries with
    | nil => exact Or.inl rfl
    | cons entry rest =>
      rcases entry with ⟨codeOpt⟩
      cases codeOpt with
      | none => exact Or.inr (Or.inl rfl)
      | some code =>
        by_cases hcode : code = ""
        · subst hcode
          exact Or.inr (Or.inr (Or.inl ⟨"", by simp [mapV2]⟩))
        · cases hl : ratesLookup rates code with
          | none =>
            exact Or.inr (Or.inr (Or.inl ⟨code, by simp [mapV2, hcode, hl]⟩))
          | some q =>
            by_cases hq : q = 0
            · subst hq
              exact Or.inr (Or.inr (Or.inl ⟨code, by simp [mapV2, hcode, hl]⟩))
            · exact Or.inr (Or.inr (Or.inr ⟨code, q, hl, hq, hcode,
                by simp [mapV2, hcode, hl, hq]⟩))

/-! ### Remaining claims -/

/-- C3: in both refresh variants, a record with no currency list gets null
currency code, exchange rate, and GDP; a currency code with no matching
entry in the fetched exchange-rate table leaves exchange rate and GDP null;
and GDP is never set when the currency code or the exchange rate is
absent. -/
theorem claim_C3_null_propagation :
    ∀ (c3 : RawV3) (c2 : RawV2) (rates : Rates) (r : ℚ),
      (c3.currencies = none → mapV3 c3 rates r = ⟨none, none, none⟩) ∧
      (∀ code, (mapV3 c3 rates r).currencyCode = some code →
        ratesLookup rates code = none →
        (mapV3 c3 rates r).exchangeRate = none ∧
        (mapV3 c3 rates r).estimatedGDP = none) ∧
      ((mapV3 c3 rates r).estimatedGDP ≠ none →
        (mapV3 c3 rates r).currencyCode ≠ none ∧
        (mapV3 c3 rates r).exchangeRate ≠ none) ∧
      (c2.currencies = none → mapV2 c2 rates r = ⟨PVal.null, none, none⟩) ∧
      (∀ code, (mapV2 c2 rates r).currencyCode = PVal.s code →
        ratesLookup rates code = none →
        (mapV2 c2 rates r).exchangeRate = none ∧
        (mapV2 c2 rates r).estimatedGDP = none) ∧
      ((mapV2 c2 rates r).estimatedGDP ≠ none →
        (mapV2 c2 rates r).currencyCode ≠ PVal.null ∧
        (mapV2 c2 rates r).currencyCode ≠ PVal.undef ∧
        (mapV2 c2 rates r).exchangeRate ≠ none) := by
  intro c3 c2 rates r
  refine ⟨mapV3_no_currencies c3 rates r, ?_, ?_,
    mapV2_no_currencies c2 rates r, ?_, ?_⟩
  · intro code hc hl
    rcases mapV3_shape c3 rates r with h | ⟨code', he⟩ | ⟨code', q, hlq, hq, hcode', he⟩
    · rw [h] at hc
      simp at hc
    · rw [he]
      exact ⟨rfl, rfl⟩
    · rw [he] at hc
      simp at hc
      rw [hc] at hlq
      rw [hl] at hlq
      exact Option.noConfusion hlq
  · intro hg
    rcases mapV3_shape c3 rates r with h | ⟨code', he⟩ | ⟨code', q, hlq, hq, hcode', he⟩
    · rw [h] at hg
      simp at hg
    · rw [he] at hg
      simp at hg
    · rw [he]
      exact ⟨by simp, by simp⟩
  · intro code hc hl
    rcases mapV2_shape c2 rates r with h | h | ⟨code', he⟩ | ⟨code', q, hlq, hq, hcode', he⟩
    · rw [h] at hc
      simp at hc
    · rw [h] at hc
      simp at hc
    · rw [he]
      exact ⟨rfl, rfl⟩
    · rw [he] at hc
      simp at hc
      rw [hc] at hlq
      rw [hl] at hlq
      exact Option.noConfusion hlq
  · intro hg
    rcases mapV2_shape c2 rates r with h | h | ⟨code', he⟩ | ⟨code', q, hlq, hq, hcode', he⟩
    · rw [h] at hg
      simp at hg
    · rw [h] at hg
      simp at hg
    · rw [he] at hg
      simp at hg
    · rw [he]
      refine ⟨by simp, by simp, by simp⟩

/-- C3 witness: a record with no currency list, and one whose code `ZZZ` is
missing from an empty rate table. -/
theorem claim_C3_witness :
    mapV3 ⟨some "X", none, none, some 5, none, none⟩ [] 0 = ⟨none, none, none⟩ ∧
    (mapV3 ⟨some "X", none, none, some 5, none, some ["ZZZ"]⟩ [] 0).exchangeRate
        = none ∧
    (mapV3 ⟨some "X", none, none, some 5, none, some ["ZZZ"]⟩ [] 0).estimatedGDP
        = none ∧
    mapV2 ⟨some "X", none, none, some 5, none, none⟩ [] 0
        = ⟨PVal.null, none, none⟩ ∧
    (mapV2 ⟨some "X", none, none, some 5, none, some [⟨some "ZZZ"⟩]⟩ [] 0).exchangeRate
        = none ∧
    (mapV2 ⟨some "X", none, none, some 5, none, some [⟨some "ZZZ"⟩]⟩ [] 0).estimatedGDP
        = none :=
  ⟨(claim_C3_null_propagation ⟨some "X", none, none, some 5, none, none⟩
      ⟨some "X", none, none, some 5, none, none⟩ [] 0).1 rfl,
   ((claim_C3_null_propagation ⟨some "X", none, none, some 5, none, some ["ZZZ"]⟩
      ⟨some "X", none, none, some 5, none, none⟩ [] 0).2.1 "ZZZ" rfl rfl).1,
   ((claim_C3_null_propagation ⟨some "X", none, none, some 5, none, some ["ZZZ"]⟩
      ⟨some "X", none, none, some 5, none, none⟩ [] 0).2.1 "ZZZ" rfl rfl).2,
   (claim_C3_null_propagation ⟨some "X", none, none, some 5, none, none⟩
      ⟨some "X", none, none, some 5, none, none⟩ [] 0).2.2.2.1 rfl,
   ((claim_C3_null_propagation ⟨some "X", none, none, some 5, none, none⟩
      ⟨some "X", none, none, some 5, none, some [⟨some "ZZZ"⟩]⟩ [] 0).2.2.2.2.1
      "ZZZ" rfl rfl).1,
   ((claim_C3_null_propagation ⟨some "X", none, none, some 5, none, none⟩
      ⟨some "X", none, none, some 5, none, some [⟨some "ZZZ"⟩]⟩ [] 0).2.2.2.2.1
      "ZZZ" rfl rfl).2⟩

/-- A raw v3.1 payload with every field absent. -/
def emptyRawV3 : RawV3 := ⟨none, none, none, none, none, none⟩

/-- A raw v2 payload with every field absent. -/
def emptyRawV2 : RawV2 := ⟨none, none, none, none, none, none⟩

/-- C6 counterexample: the upsert variant's insert parameters pass
`country.name` and `country.population` through unchanged, so a payload with
both absent binds `undefined` — not the sentinel `'Unknown'` and not 0. -/
theorem claim_C6_counterexample :
    (paramsV2 emptyRawV2 [] 0).name = PVal.undef ∧
    PVal.undef ≠ PVal.s "Unknown" ∧
    (paramsV2 emptyRawV2 [] 0).population = PVal.undef ∧
    PVal.undef ≠ PVal.i 0 :=
  ⟨rfl, by decide, rfl, by decide⟩

/-- C6 amended: neither mapper raises on missing nested fields.  The
full-replace variant substitutes defaults throughout: `'Unknown'` for a
missing name, 0 for a missing population, null for missing capital, flags,
region, and currency data.  The upsert variant substitutes null for missing
capital, flag, and currency data, but passes `name` and `population` through
unchanged, binding `undefined` (which makes the driver reject that record)
when they are absent. -/
theorem claim_C6_amended :
    ∀ (c3 : RawV3) (c2 : RawV2) (rates : Rates) (r : ℚ),
      (c3.nameCommon = none → (paramsV3 c3 rates r).name = PVal.s "Unknown") ∧
      (c3.population = none → (paramsV3 c3 rates r).population = PVal.i 0) ∧
      (c3.capital = none → (paramsV3 c3 rates r).capital = PVal.null) ∧
      (c3.region = none → (paramsV3 c3 rates r).region = PVal.null) ∧
      (c3.flagsPng = none → (paramsV3 c3 rates r).flag_url = PVal.null) ∧
      (c3.currencies = none →
        (paramsV3 c3 rates r).currency_code = PVal.null ∧
        (paramsV3 c3 rates r).exchange_rate = PVal.null ∧
        (paramsV3 c3 rates r).estimated_gdp = PVal.null) ∧
      (c2.capital = none → (paramsV2 c2 rates r).capital = PVal.null) ∧
      (c2.region = none → (paramsV2 c2 rates r).region = PVal.null) ∧
      (c2.flag = none → (paramsV2 c2 rates r).flag_url = PVal.null) ∧
      (c2.currencies = none →
        (paramsV2 c2 rates r).currency_code = PVal.null ∧
        (paramsV2 c2 rates r).exchange_rate = PVal.null ∧
        (paramsV2 c2 rates r).estimated_gdp = PVal.null) ∧
      (c2.name = none → (paramsV2 c2 rates r).name = PVal.undef) ∧
      (c2.population = none → (paramsV2 c2 rates r).population = PVal.undef) := by
  intro c3 c2 rates r
  refine ⟨?_, ?_, ?_, ?_, ?_, ?_, ?_, ?_, ?_, ?_, ?_, ?_⟩
  · intro h
    simp [paramsV3, jsStrOr, h]
  · intro h
    simp [paramsV3, h]
  · intro h
    simp [paramsV3, h]
  · intro h
    simp [paramsV3, jsStrOr, h]
  · intro h
    simp [paramsV3, jsStrOr, h]
  · intro h
    have hm := mapV3_no_currencies c3 rates r h
    refine ⟨?_, ?_, ?_⟩ <;> simp [paramsV3, hm, pOfRat, pOfGdp]
  · intro h
    simp [paramsV2, jsStrOr, h]
  · intro h
    simp [paramsV2, jsStrOr, h]
  · intro h
    simp [paramsV2, jsStrOr, h]
  · intro h
    have hm := mapV2_no_currencies c2 rates r h
    refine ⟨?_, ?_, ?_⟩ <;> simp [paramsV2, hm, pOfRat, pOfGdp]
  · intro h
    simp [paramsV2, h]
  · intro h
    simp [paramsV2, h]

/-- C6 witness: the amended statement at the all-absent payloads. -/
theorem claim_C6_amended_witness :
    (paramsV3 emptyRawV3 [] 0).name = PVal.s "Unknown" ∧
    (paramsV3 emptyRawV3 [] 0).population = PVal.i 0 ∧
    (paramsV3 emptyRawV3 [] 0).capital = PVal.null ∧
    (paramsV3 emptyRawV3 [] 0).currency_code = PVal.null ∧
    (paramsV3 emptyRawV3 [] 0).estimated_gdp = PVal.null ∧
    (paramsV2 emptyRawV2 [] 0).capital = PVal.null ∧
    (paramsV2 emptyRawV2 [] 0).currency_code = PVal.null ∧
    (paramsV2 emptyRawV2 [] 0).name = PVal.undef ∧
    (paramsV2 emptyRawV2 [] 0).population = PVal.undef :=
  ⟨(claim_C6_amended emptyRawV3 emptyRawV2 [] 0).1 rfl,
   (claim_C6_amended emptyRawV3 emptyRawV2 [] 0).2.1 rfl,
   (claim_C6_amended emptyRawV3 emptyRawV2 [] 0).2.2.1 rfl,
   ((claim_C6_amended emptyRawV3 emptyRawV2 [] 0).2.2.2.2.2.1 rfl).1,
   ((claim_C6_amended emptyRawV3 emptyRawV2 [] 0).2.2.2.2.2.1 rfl).2.2,
   (claim_C6_amended emptyRawV3 emptyRawV2 [] 0).2.2.2.2.2.2.1 rfl,
   ((claim_C6_amended emptyRawV3 emptyRawV2 [] 0).2.2.2.2.2.2.2.2.2.1 rfl).1,
   (claim_C6_amended emptyRawV3 emptyRawV2 [] 0).2.2.2.2.2.2.2.2.2.2.1 rfl,
   (claim_C6_amended emptyRawV3 emptyRawV2 [] 0).2.2.2.2.2.2.2.2.2.2.2 rfl⟩

theorem filter_not_filter (db : List Row) (n : String) :
    (db.filter (fun r => ¬ r.name = n)).filter (fun r => r.name = n) = [] := by
  induction db with
  | nil => rfl
  | cons r d ih =>
    by_cases h : r.name = n
    · simp only [List.filter_cons]
      rw [if_neg (by simp [h])]
      exact ih
    · simp only [List.filter_cons]
      rw [if_pos (by simp [h])]
      simp only [List.filter_cons]
      rw [if_neg (by simp [h])]
      exact ih

theorem getCountryByName_404 {db : List Row} {n : String} (hn : n ≠ "")
    (h : db.filter (fun r => r.name = n) = []) :
    getCountryByName db n = (404, none) := by
  unfold getCountryByName
  rw [if_neg hn, if_pos (by rw [h]; rfl)]

/-- C7: a successful `DELETE /countries/:name` leaves no row of that name,
so the subsequent `GET /countries/:name` returns 404; a GET for a name with
no stored row returns 404 with no body; and a 200 response always carries a
row, never an empty body.  (A non-empty name is what Express guarantees for
a matched `/countries/:name` route.) -/
theorem claim_C7_delete_then_get :
    ∀ (db : List Row) (n : String),
      ((deleteCountry db n).1 = 204 →
        (getCountryByName (deleteCountry db n).2 n).1 = 404) ∧
      (n ≠ "" → db.filter (fun r => r.name = n) = [] →
        getCountryByName db n = (404, none)) ∧
      ((getCountryByName db n).1 = 200 → (getCountryByName db n).2 ≠ none) := by
  intro db n
  by_cases hn : n = ""
  · subst hn
    refine ⟨?_, ?_, ?_⟩
    · intro h
      unfold deleteCountry at h
      rw [if_pos rfl] at h
      simp at h
    · intro h
      exact absurd rfl h
    · intro h
      unfold getCountryByName at h
      rw [if_pos rfl] at h
      exact absurd h (by decide)
  · refine ⟨?_, ?_, ?_⟩
    · intro h
      unfold deleteCountry at h
      rw [if_neg hn] at h
      by_cases ha : (db.filter (fun r => r.name = n)).length = 0
      · rw [if_pos ha] at h
        simp at h
      · have h2 : (deleteCountry db n).2 = db.filter (fun r => ¬ r.name = n) := by
          unfold deleteCountry
          rw [if_neg hn, if_neg ha]
        rw [h2, getCountryByName_404 hn (filter_not_filter db n)]
    · intro _ h
      exact getCountryByName_404 hn h
    · intro h
      unfold getCountryByName at h ⊢
      rw [if_neg hn] at h ⊢
      by_cases he : (db.filter (fun r => r.name = n)).isEmpty
      · rw [if_pos he] at h
        exact absurd h (by decide)
      · rw [if_neg he] at h ⊢
        intro hcontra
        have hnil : db.filter (fun r => r.name = n) = [] := by
          have := congrArg Prod.snd (rfl :
            ((200 : ℕ), (db.filter (fun r => r.name = n)).head?)
              = ((200 : ℕ), (db.filter (fun r => r.name = n)).head?))
          cases hf : db.filter (fun r => r.name = n) with
          | nil => rfl
          | cons a l =>
            rw [hf] at hcontra
            exact absurd hcontra (by simp)
        rw [hnil] at he
        exact he rfl

/-- A concrete stored row named `A`. -/
def rowA : Row := ⟨⟨"A", none, none, none, none, none, none, none⟩, none⟩

/-- C7 witness: delete-then-get on a one-row table, a get on an empty table,
and a populated 200 body. -/
theorem claim_C7_witness :
    (getCountryByName (deleteCountry [rowA] "A").2 "A").1 = 404 ∧
    getCountryByName [] "B" = (404, none) ∧
    (getCountryByName [rowA] "A").2 ≠ none :=
  ⟨(claim_C7_delete_then_get [rowA] "A").1 rfl,
   (claim_C7_delete_then_get [] "B").2.1 (by decide) rfl,
   (claim_C7_delete_then_get [rowA] "A").2.2 rfl⟩

theorem runBatch_nil (db : List Row) (now : ℕ) : runBatch db [] now = db := rfl

theorem runBatch_cons (db : List Row) (b : URecord) (rest : List URecord)
    (now : ℕ) :
    runBatch db (b :: rest) now = runBatch (upsertRow db b now) rest now := rfl

theorem filter_map_update (db : List Row) (e : URecord) (now : ℕ) :
    (db.map (fun r => if r.name = e.name then rowOf e now else r)).filter
        (fun r => r.name = e.name)
      = (db.filter (fun r => r.name = e.name)).map (fun _ => rowOf e now) := by
  induction db with
  | nil => rfl
  | cons r d ih =>
    by_cases h : r.name = e.name
    · simp only [List.map_cons, List.filter_cons]
      rw [if_pos h, if_pos (by simp [rowOf]), if_pos (by simp [h])]
      rw [List.map_cons, ih]
    · simp only [List.map_cons, List.filter_cons]
      rw [if_neg h, if_neg (by simp [h]), if_neg (by simp [h])]
      exact ih

theorem filter_map_update_other (db : List Row) (n : String) (e : URecord)
    (now : ℕ) (hne : e.name ≠ n) :
    (db.map (fun r => if r.name = e.name then rowOf e now else r)).filter
        (fun r => r.name = n)
      = db.filter (fun r => r.name = n) := by
  induction db with
  | nil => rfl
  | cons r d ih =>
    by_cases h : r.name = e.name
    · have hr : ¬ r.name = n := by
        rw [h]
        exact hne
      simp only [List.map_cons, List.filter_cons]
      rw [if_pos h, if_neg (by simp [rowOf, hne]), if_neg (by simp [hr])]
      exact ih
    · simp only [List.map_cons, List.filter_cons]
      rw [if_neg h]
      by_cases hr : r.name = n
      · rw [if_pos (by simp [hr]), if_pos (by simp [hr]), ih]
      · rw [if_neg (by simp [hr]), if_neg (by simp [hr])]
        exact ih

theorem upsertRow_same (db : List Row) (e : URecord) (now : ℕ) :
    (upsertRow db e now).filter (fun r => r.name = e.name) ≠ [] ∧
    ∀ row ∈ (upsertRow db e now).filter (fun r => r.name = e.name),
      row = rowOf e now := by
  unfold upsertRow
  by_cases hex : 0 < (db.filter (fun r => r.name = e.name)).length
  · rw [if_pos hex, filter_map_update db e now]
    constructor
    · intro hcontra
      rw [List.map_eq_nil_iff] at hcontra
      rw [hcontra] at hex
      exact absurd hex (by simp)
    · intro row hrow
      rcases List.mem_map.mp hrow with ⟨r, _, hmapped⟩
      exact hmapped.symm
  · rw [if_neg hex]
    have hfe : db.filter (fun r => r.name = e.name) = [] :=
      List.length_eq_zero.mp (by omega)
    rw [List.filter_append, hfe, List.nil_append]
    constructor
    · simp [rowOf]
    · intro row hrow
      simp only [List.filter_cons, List.filter_nil] at hrow
      rw [if_pos (by simp [rowOf])] at hrow
      simpa using hrow

theorem upsertRow_frame (db : List Row) (e : URecord) (now : ℕ) (n : String)
    (hne : e.name ≠ n) :
    (upsertRow db e now).filter (fun r => r.name = n)
      = db.filter (fun r => r.name = n) := by
  unfold upsertRow
  by_cases hex : 0 < (db.filter (fun r => r.name = e.name)).length
  · rw [if_pos hex]
    exact filter_map_update_other db n e now hne
  · rw [if_neg hex, List.filter_append]
    simp only [List.filter_cons, List.filter_nil]
    rw [if_neg (by simp [rowOf, hne])]
    rw [List.append_nil]

theorem runBatch_frame (batch : List URecord) :
    ∀ (db : List Row) (now : ℕ) (n : String),
      (∀ x ∈ batch, x.name ≠ n) →
      (runBatch db batch now).filter (fun r => r.name = n)
        = db.filter (fun r => r.name = n) := by
  induction batch with
  | nil =>
    intro db now n _
    rfl
  | cons b rest ih =>
    intro db now n h
    have hb : b.name ≠ n := h b (by simp)
    have hrest : ∀ x ∈ rest, x.name ≠ n := fun x hx => h x (by simp [hx])
    rw [runBatch_cons, ih (upsertRow db b now) now n hrest,
      upsertRow_frame db b now n hb]

theorem runBatch_length (batch : List URecord) :
    ∀ (db : List Row) (now : ℕ), db.length ≤ (runBatch db batch now).length := by
  induction batch with
  | nil =>
    intro db now
    exact le_refl _
  | cons b rest ih =>
    intro db now
    rw [runBatch_cons]
    refine le_trans ?_ (ih (upsertRow db b now) now)
    unfold upsertRow
    by_cases hex : 0 < (db.filter (fun r => r.name = b.name)).length
    · rw [if_pos hex, List.length_map]
    · rw [if_neg hex, List.length_append]
      omega

theorem runBatch_last_write (batch : List URecord) :
    ∀ (db : List Row) (now : ℕ) (n : String) (e : URecord),
      (batch.filter (fun x => x.name = n)).getLast? = some e →
      (runBatch db batch now).filter (fun r => r.name = n) ≠ [] ∧
      ∀ row ∈ (runBatch db batch now).filter (fun r => r.name = n),
        row = rowOf e now := by
  induction batch with
  | nil =>
    intro db now n e h
    simp at h
  | cons b rest ih =>
    intro db now n e h
    rw [runBatch_cons]
    by_cases hrest : rest.filter (fun x => x.name = n) = []
    · have hb : b.name = n ∧ e = b := by
        rw [List.filter_cons, hrest] at h
        by_cases hbn : b.name = n
        · rw [if_pos (by simp [hbn])] at h
          simp at h
          exact ⟨hbn, h.symm⟩
        · rw [if_neg (by simp [hbn])] at h
          simp at h
      obtain ⟨hbn, he⟩ := hb
      subst he
      have hnone : ∀ x ∈ rest, x.name ≠ n := by
        intro x hx hxn
        have hmem : x ∈ rest.filter (fun x => x.name = n) :=
          List.mem_filter.mpr ⟨hx, by simp [hxn]⟩
        rw [hrest] at hmem
        cases hmem
      rw [runBatch_frame rest (upsertRow db e now) now n hnone, ← hbn]
      exact upsertRow_same db e now
    · have hlast : (rest.filter (fun x => x.name = n)).getLast? = some e := by
        rw [List.filter_cons] at h
        by_cases hbn : b.name = n
        · rw [if_pos (by simp [hbn])] at h
          obtain ⟨y, l', hyl⟩ := List.exists_cons_of_ne_nil hrest
          rw [hyl] at h
          rw [List.getLast?_cons_cons] at h
          rw [hyl]
          exact h
        · rw [if_neg (by simp [hbn])] at h
          exact h
      exact ih (upsertRow db b now) now n e hlast

/-- C8: in the upsert variant, when several batch entries share a name, the
stored row for that name after the batch is the row of the last such entry
(each later entry finds the existing row and overwrites it). -/
theorem claim_C8_last_write_wins :
    ∀ (db : List Row) (batch : List URecord) (now : ℕ) (n : String)
      (e : URecord),
      (batch.filter (fun x => x.name = n)).getLast? = some e →
      lookupRow (runBatch db batch now) n = some (rowOf e now) := by
  intro db batch now n e h
  have hmain := runBatch_last_write batch db now n e h
  unfold lookupRow
  obtain ⟨y, l', hyl⟩ := List.exists_cons_of_ne_nil hmain.1
  rw [hyl]
  have hy : y = rowOf e now := hmain.2 y (by rw [hyl]; simp)
  rw [hy]
  rfl

/-- Mapped record `A` with capital `X`. -/
def recA1 : URecord := ⟨"A", some "X", none, none, none, none, none, none⟩

/-- Mapped record `A` with capital `Y`. -/
def recA2 : URecord := ⟨"A", some "Y", none, none, none, none, none, none⟩

/-- C8 witness: two same-named entries in one batch over an empty table; the
second one's content is what ends up stored. -/
theorem claim_C8_witness :
    lookupRow (runBatch [] [recA1, recA2] 7) "A" = some (rowOf recA2 7) :=
  claim_C8_last_write_wins [] [recA1, recA2] 7 "A" recA2 (by rfl)

/-- C9: an upsert refresh never deletes rows: the rows of any name absent
from the batch are exactly what they were before the refresh, and the row
count never decreases. -/
theorem claim_C9_no_deletion :
    ∀ (db : List Row) (batch : List URecord) (now : ℕ),
      (∀ n : String, (∀ x ∈ batch, x.name ≠ n) →
        (runBatch db batch now).filter (fun r => r.name = n)
          = db.filter (fun r => r.name = n)) ∧
      db.length ≤ (runBatch db batch now).length := by
  intro db batch now
  exact ⟨fun n h => runBatch_frame batch db now n h,
    runBatch_length batch db now⟩

/-- A concrete stored row named `B`. -/
def rowB : Row := ⟨⟨"B", none, none, none, none, none, none, none⟩, some 3⟩

/-- C9 witness: a batch touching only name `A` leaves the stored `B` row
alone and does not shrink the table. -/
theorem claim_C9_witness :
    (runBatch [rowB, rowA] [recA1] 7).filter (fun r => r.name = "B")
        = [rowB, rowA].filter (fun r => r.name = "B") ∧
    [rowB, rowA].length ≤ (runBatch [rowB, rowA] [recA1] 7).length :=
  ⟨(claim_C9_no_deletion [rowB, rowA] [recA1] 7).1 "B" (by decide),
   (claim_C9_no_deletion [rowB, rowA] [recA1] 7).2⟩

end CountryCurrencyApi
